import Mathlib

/-!
# opencascade-sys `wrapper.cpp`: ownership bridging over an explicit heap

The four functions of `crates/opencascade-sys/cpp/wrapper.cpp` are embedded as
state-passing functions over a heap of kernel objects.  Every `new` of the
source is an allocation in that heap, every `opencascade::handle` that is
created or destroyed is an increment or a decrement of the reference counter of
the object it designates, and a `std::unique_ptr` is a raw address with no
counter of its own.  Coordinates (`double` in the source) are rationals: every
finite `double` is one, and the wrapper performs no arithmetic on them.
-/

namespace OpenCascade

/-! ## Data model -/

/-- A raw pointer value: the index of a heap cell. -/
abbrev Addr := Nat

/-- Cartesian point of the kernel (`gp_Pnt`): three stored coordinates. -/
structure gp_Pnt where
  x : ℚ
  y : ℚ
  z : ℚ
deriving DecidableEq

namespace gp_Pnt

/-- Accessor `gp_Pnt::X()`. -/
def X (p : gp_Pnt) : ℚ := p.x

/-- Accessor `gp_Pnt::Y()`. -/
def Y (p : gp_Pnt) : ℚ := p.y

/-- Accessor `gp_Pnt::Z()`. -/
def Z (p : gp_Pnt) : ℚ := p.z

end gp_Pnt

/-- Modelled from the spec: the geometric value of a `Geom_TrimmedCurve`, whose
class lives in the kernel and not in `wrapper.cpp`.  The specification knows two
bounded curves: the segment derived from two points and the circular arc
derived from a start, an interior and an end point. -/
inductive CurveGeom where
  | segment (p1 p2 : gp_Pnt)
  | arcOfCircle (p1 p2 p3 : gp_Pnt)
deriving DecidableEq

namespace CurveGeom

/-- Modelled from the spec: `Geom_TrimmedCurve::StartPoint()`, the first end of
the bounded curve. -/
def StartPoint : CurveGeom → gp_Pnt
  | segment p1 _ => p1
  | arcOfCircle p1 _ _ => p1

/-- Modelled from the spec: `Geom_TrimmedCurve::EndPoint()`, the last end of the
bounded curve. -/
def EndPoint : CurveGeom → gp_Pnt
  | segment _ p2 => p2
  | arcOfCircle _ _ p3 => p3

end CurveGeom

/-- Modelled from the spec: `opencascade::handle<T>`, "the kernel's
reference-counted indirection type".  A handle is null or designates one heap
object, of whose reference counter it holds one unit while it exists. -/
abbrev Handle := Option Addr

/-- A `std::unique_ptr<T>` as it crosses the boundary: null or the raw address
of the object it will `delete`.  It carries no reference count. -/
abbrev unique_ptr := Option Addr

/-- Objects that the wrapper and the kernel calls it makes place on the heap. -/
inductive Obj where
  /-- The object made by `new gp_Pnt(x, y, z)`. -/
  | Pnt (p : gp_Pnt)
  /-- The object made by `new GC_MakeSegment(p1, p2)`: success status and the
  member handle `TheSegment`. -/
  | MakeSegment (isDone : Bool) (TheSegment : Handle)
  /-- The object made by `new GC_MakeArcOfCircle(p1, p2, p3)`: success status and
  the member handle `TheArc`. -/
  | MakeArcOfCircle (isDone : Bool) (TheArc : Handle)
  /-- A `Geom_TrimmedCurve` with its intrusive reference counter. -/
  | TrimmedCurve (geom : CurveGeom) (refCount : Nat)
  /-- The object made by `new TopoDS_Edge(...)`: the curve the edge is built on
  and the handle, null or not, through which the edge keeps that curve alive. -/
  | Edge (curve : CurveGeom) (share : Handle)
deriving DecidableEq

/-- The heap: cell `a` holds the object at address `a`, or `none` once that
object has been destroyed.  Addresses are never reused. -/
abbrev Heap := List (Option Obj)

namespace Heap

/-- The object at an address, when one is alive there. -/
def read (h : Heap) (a : Addr) : Option Obj := (h.get? a).join

/-- Operator `new`: the object goes in a fresh cell, whose address is returned. -/
def alloc (h : Heap) (o : Obj) : Heap × Addr := (h ++ [some o], h.length)

/-- Overwrite the cell at an address. -/
def write (h : Heap) (a : Addr) (o : Option Obj) : Heap := h.set a o

/-- The geometric value and reference count of the curve at an address. -/
def curve? (h : Heap) (a : Addr) : Option (CurveGeom × Nat) :=
  match h.read a with
  | some (Obj.TrimmedCurve g n) => some (g, n)
  | _ => none

/-- `Standard_Transient::IncrementRefCounter()` on the curve at an address. -/
def incRef (h : Heap) (a : Addr) : Heap :=
  match h.read a with
  | some (Obj.TrimmedCurve g n) => h.write a (some (Obj.TrimmedCurve g (n + 1)))
  | _ => h

/-- The end of a handle's scope on the curve at an address: the counter is
decremented and the object is deleted when the counter reaches zero.  A counter
that is 0 already has no handle left to release it and is left alone. -/
def decRef (h : Heap) (a : Addr) : Heap :=
  match h.read a with
  | some (Obj.TrimmedCurve g n) =>
      if n = 0 then h
      else if n = 1 then h.write a none
      else h.write a (some (Obj.TrimmedCurve g (n - 1)))
  | _ => h

/-- Number of live objects. -/
def liveCount (h : Heap) : Nat := h.countP Option.isSome

/-- Is the cell a live computation object (`GC_MakeSegment` or
`GC_MakeArcOfCircle`)? -/
def isComputation : Option Obj → Bool
  | some (Obj.MakeSegment _ _) => true
  | some (Obj.MakeArcOfCircle _ _) => true
  | _ => false

/-- Number of live computation objects. -/
def computationCount (h : Heap) : Nat := h.countP isComputation

end Heap

/-- Modelled from the spec: constructing a handle from a raw pointer or copying
a handle takes one unit of the designated object's reference counter; a null
handle takes nothing. -/
def Handle.acquire (h : Heap) : Handle → Heap
  | some a => h.incRef a
  | none => h

/-- Modelled from the spec: destroying a handle gives its unit back and deletes
the object when no unit is left; a null handle does nothing. -/
def Handle.release (h : Heap) : Handle → Heap
  | some a => h.decRef a
  | none => h

/-- Accessor `handle::get()`: the raw pointer, with no effect on the counter. -/
def Handle.get (hd : Handle) : Option Addr := hd

/-! ## Kernel computations called by the wrapper -/

/-- Modelled from the spec: the three points lie on one line (coincident points
included), the input on which the kernel's arc computation reports
non-success.  Stated on the cross product of `p2 - p1` and `p3 - p1`. -/
def collinear (p1 p2 p3 : gp_Pnt) : Prop :=
  (p2.y - p1.y) * (p3.z - p1.z) - (p2.z - p1.z) * (p3.y - p1.y) = 0 ∧
  (p2.z - p1.z) * (p3.x - p1.x) - (p2.x - p1.x) * (p3.z - p1.z) = 0 ∧
  (p2.x - p1.x) * (p3.y - p1.y) - (p2.y - p1.y) * (p3.x - p1.x) = 0

instance (p1 p2 p3 : gp_Pnt) : Decidable (collinear p1 p2 p3) :=
  inferInstanceAs (Decidable (_ ∧ _ ∧ _))

/-- Modelled from the spec: `new GC_MakeSegment(p1, p2)`, the kernel's
segment-making computation, placed on the heap by the caller's `new`.  It
reports non-success and leaves its handle null when the two points coincide;
otherwise it creates the trimmed curve from `p1` to `p2` and keeps it in its
member handle, which holds one unit of the curve's counter. -/
def new_GC_MakeSegment (h : Heap) (p1 p2 : gp_Pnt) : Heap × Addr :=
  let (h1, self) := h.alloc (Obj.MakeSegment false none)
  if p1 = p2 then (h1, self)
  else
    let (h2, c) := h1.alloc (Obj.TrimmedCurve (CurveGeom.segment p1 p2) 0)
    let h3 := Handle.acquire h2 (some c)
    (h3.write self (some (Obj.MakeSegment true (some c))), self)

/-- Modelled from the spec: `new GC_MakeArcOfCircle(p1, p2, p3)`, the kernel's
arc-making computation.  It reports non-success and leaves its handle null on
collinear points; otherwise it creates the arc that starts at `p1`, passes
`p2` and ends at `p3`, and keeps it in its member handle. -/
def new_GC_MakeArcOfCircle (h : Heap) (p1 p2 p3 : gp_Pnt) : Heap × Addr :=
  let (h1, self) := h.alloc (Obj.MakeArcOfCircle false none)
  if collinear p1 p2 p3 then (h1, self)
  else
    let (h2, c) := h1.alloc (Obj.TrimmedCurve (CurveGeom.arcOfCircle p1 p2 p3) 0)
    let h3 := Handle.acquire h2 (some c)
    (h3.write self (some (Obj.MakeArcOfCircle true (some c))), self)

/-- Modelled from the spec: `IsDone()` of the computation object at an address,
the success status the kernel reports. -/
def IsDone (h : Heap) (self : Addr) : Bool :=
  match h.read self with
  | some (Obj.MakeSegment d _) => d
  | some (Obj.MakeArcOfCircle d _) => d
  | _ => false

/-- Modelled from the spec: `Value()` of the computation object at an address.
It hands out the member handle whatever the status: the specification describes
the unchecked extraction as "propagating an invalid value rather than signaling
failure", so on non-success the handle obtained is the null one. -/
def Value (h : Heap) (self : Addr) : Handle :=
  match h.read self with
  | some (Obj.MakeSegment _ v) => v
  | some (Obj.MakeArcOfCircle _ v) => v
  | _ => none

/-- Modelled from the spec: `BRepBuilderAPI_MakeEdge(curve_handle)` followed by
`Edge()`, the kernel's edge builder.  The edge is built on the curve the handle
designates; `keepsShare` says whether the edge keeps a handle on that very
object (one more unit of its counter) or only the geometry read through it,
which the specification leaves open.  No edge comes out of a handle that
designates no live curve. -/
def BRepBuilderAPI_MakeEdge (keepsShare : Bool) (h : Heap) (c : Handle) :
    Option (Heap × Obj) :=
  match c with
  | none => none
  | some a =>
    match h.curve? a with
    | none => none
    | some (g, _) =>
      if keepsShare then some (Handle.acquire h (some a), Obj.Edge g (some a))
      else some (h, Obj.Edge g none)

/-! ## The wrapper functions -/

/-- Source `new_point`: `return std::unique_ptr<gp_Pnt>(new gp_Pnt(x, y, z));`. -/
def new_point (h : Heap) (x y z : ℚ) : Heap × unique_ptr :=
  let (h1, p) := h.alloc (Obj.Pnt ⟨x, y, z⟩)
  (h1, some p)

/-- Source `new_segment`.  The computation object is created with `new` and no
`delete` follows; `auto segment = new_segment_result->Value()` copies the
handle; the returned `unique_ptr` is built on `segment.get()`; the local handle
`segment` ends its scope at the `return`. -/
def new_segment (h : Heap) (p1 p2 : gp_Pnt) : Heap × unique_ptr :=
  let (h1, new_segment_result) := new_GC_MakeSegment h p1 p2
  let segment : Handle := Value h1 new_segment_result
  let h2 := Handle.acquire h1 segment
  let result : unique_ptr := Handle.get segment
  (Handle.release h2 segment, result)

/-- Source `new_arc_of_circle`, of the same shape as `new_segment`. -/
def new_arc_of_circle (h : Heap) (p1 p2 p3 : gp_Pnt) : Heap × unique_ptr :=
  let (h1, new_arc_result) := new_GC_MakeArcOfCircle h p1 p2 p3
  let new_arc : Handle := Value h1 new_arc_result
  let h2 := Handle.acquire h1 new_arc
  let result : unique_ptr := Handle.get new_arc
  (Handle.release h2 new_arc, result)

/-- The states a call of `make_edge` goes through, statement by statement. -/
structure MakeEdgeRun where
  /-- The local `curve_handle`, which is given to the edge builder. -/
  curve_handle : Handle
  /-- After `curve_handle` has been constructed on `&geom_curve`. -/
  afterHandle : Heap
  /-- After the edge builder has run. -/
  afterBuilder : Heap
  /-- After `new TopoDS_Edge(make_edge_result.Edge())`. -/
  afterNew : Heap
  /-- At return, the locals destroyed. -/
  afterScope : Heap
  /-- The local `edge`. -/
  edge : Addr

/-- Source `make_edge`, with its intermediate states.  `geom_curve` is the
address behind the reference parameter; the handle is constructed on that very
address.  `keepsShare` is the edge builder's behaviour, passed on to the kernel
call.  The run is undefined (`none`) when the reference designates no live
curve. -/
def make_edge_run (keepsShare : Bool) (h : Heap) (geom_curve : Addr) :
    Option MakeEdgeRun :=
  let curve_handle : Handle := some geom_curve
  let h1 := Handle.acquire h curve_handle
  match BRepBuilderAPI_MakeEdge keepsShare h1 curve_handle with
  | none => none
  | some (h2, make_edge_result) =>
    let (h3, edge) := h2.alloc make_edge_result
    some ⟨curve_handle, h1, h2, h3, Handle.release h3 curve_handle, edge⟩

/-- Source `make_edge`: the heap at return and `std::unique_ptr<TopoDS_Edge>(edge)`. -/
def make_edge (keepsShare : Bool) (h : Heap) (geom_curve : Addr) :
    Option (Heap × unique_ptr) :=
  (make_edge_run keepsShare h geom_curve).map fun r => (r.afterScope, some r.edge)

/-- The states of a run in the order they occur. -/
def MakeEdgeRun.states (r : MakeEdgeRun) : List Heap :=
  [r.afterHandle, r.afterBuilder, r.afterNew, r.afterScope]

/-! ## Repetition, caller's view and sample data -/

/-- Calling `new_segment` `n` times in a row on the same points, the returned
pointers being dropped by the caller without being destroyed. -/
def repeat_new_segment : Nat → Heap → gp_Pnt → gp_Pnt → Heap
  | 0, h, _, _ => h
  | n + 1, h, p1, p2 => repeat_new_segment n (new_segment h p1 p2).1 p1 p2

/-- Calling `new_arc_of_circle` `n` times in a row on the same points. -/
def repeat_new_arc_of_circle : Nat → Heap → gp_Pnt → gp_Pnt → gp_Pnt → Heap
  | 0, h, _, _, _ => h
  | n + 1, h, p1, p2, p3 =>
      repeat_new_arc_of_circle n (new_arc_of_circle h p1 p2 p3).1 p1 p2 p3

/-- The failure results of the specification's error taxonomy. -/
inductive WrapperError where
  | DegenerateInputError
  | OwnershipViolationError
deriving DecidableEq

/-- What the caller of a source constructor obtains from a finished call, in the
result vocabulary of the specification.  Both constructors have a `return` of
the pointer as their only exit and no call they make raises in the kernel as
modelled, so the caller obtains a value in every case: the curve behind the
returned pointer, or nothing when that pointer is null or dangling. -/
def obtained (r : Heap × unique_ptr) : Except WrapperError (Option CurveGeom) :=
  Except.ok (r.2.bind fun a => (r.1.curve? a).map Prod.fst)

/-- The heap in which the counter of the curve at `c` has been set to `m`. -/
def withCount (h : Heap) (c : Addr) (g : CurveGeom) (m : Nat) : Heap :=
  h.write c (some (Obj.TrimmedCurve g m))

/-- The point (0, 0, 0). -/
def origin : gp_Pnt := ⟨0, 0, 0⟩

/-- The point (1, 0, 0). -/
def unitX : gp_Pnt := ⟨1, 0, 0⟩

/-- The point (0, 1, 0). -/
def unitY : gp_Pnt := ⟨0, 1, 0⟩

/-- The point (2, 0, 0), on the line through `origin` and `unitX`. -/
def twoX : gp_Pnt := ⟨2, 0, 0⟩

/-- A heap whose only object is a segment curve that no handle owns (counter 0),
such as a curve its caller holds by value or through a `unique_ptr` alone. -/
def unsharedCurveHeap : Heap := [some (Obj.TrimmedCurve (CurveGeom.segment origin unitX) 0)]

/-! ## Exact geometry of the arc through three points -/

/-- A vector of the kernel (`gp_Vec`): three stored components. -/
structure gp_Vec where
  x : ℚ
  y : ℚ
  z : ℚ
deriving DecidableEq

namespace gp_Vec

/-- The vector from point `p` to point `q`. -/
def ofPoints (p q : gp_Pnt) : gp_Vec := ⟨q.x - p.x, q.y - p.y, q.z - p.z⟩

/-- Cross product. -/
def Crossed (u v : gp_Vec) : gp_Vec :=
  ⟨u.y * v.z - u.z * v.y, u.z * v.x - u.x * v.z, u.x * v.y - u.y * v.x⟩

/-- Scalar product. -/
def Dot (u v : gp_Vec) : ℚ := u.x * v.x + u.y * v.y + u.z * v.z

/-- Square of the length. -/
def SquareMagnitude (u : gp_Vec) : ℚ := u.Dot u

end gp_Vec

/-- Square of the distance between two points. -/
def gp_Pnt.SquareDistance (p q : gp_Pnt) : ℚ := (gp_Vec.ofPoints p q).SquareMagnitude

/-- The normal of the plane through three points: the cross product of `p2 - p1`
and `p3 - p1`, which is the zero vector exactly on collinear points. -/
def planeNormal (p1 p2 p3 : gp_Pnt) : gp_Vec :=
  (gp_Vec.ofPoints p1 p2).Crossed (gp_Vec.ofPoints p1 p3)

/-- Modelled from the spec: the vector from the first of three points to the
centre of the circle through them, in exact arithmetic, given `u = p2 - p1` and
`v = p3 - p1`.  With `n = u × v` it is
`(|u|² (v × n) + |v|² (n × u)) / (2 |n|²)`. -/
def centreOffset (u v : gp_Vec) : gp_Vec :=
  let n := u.Crossed v
  let a := v.Crossed n
  let b := n.Crossed u
  let d := 2 * n.SquareMagnitude
  ⟨(u.SquareMagnitude * a.x + v.SquareMagnitude * b.x) / d,
   (u.SquareMagnitude * a.y + v.SquareMagnitude * b.y) / d,
   (u.SquareMagnitude * a.z + v.SquareMagnitude * b.z) / d⟩

/-- Modelled from the spec: the centre of the circle that carries the arc through
`p1`, `p2`, `p3`: the point of the plane of the three points that is equidistant
from them. -/
def circleCentre (p1 p2 p3 : gp_Pnt) : gp_Pnt :=
  let w := centreOffset (gp_Vec.ofPoints p1 p2) (gp_Vec.ofPoints p1 p3)
  ⟨p1.x + w.x, p1.y + w.y, p1.z + w.z⟩

/-- Modelled from the spec: where a point stands with respect to the chord from
`p1` to `p3`, in the plane of the three points.  The value is positive on the
side of the chord on which `p2` lies, zero on the line of the chord and negative
on the other side. -/
def chordSide (p1 p2 p3 q : gp_Pnt) : ℚ :=
  ((gp_Vec.ofPoints p1 q).Crossed (gp_Vec.ofPoints p1 p3)).Dot (planeNormal p1 p2 p3)

namespace CurveGeom

/-- Modelled from the spec: the centre of the circle an arc lies on; a segment has
none. -/
def Centre : CurveGeom → Option gp_Pnt
  | segment _ _ => none
  | arcOfCircle p1 p2 p3 => some (circleCentre p1 p2 p3)

/-- Modelled from the spec: the curve passes through the point.  For the arc
that starts at `p1`, passes `p2` and ends at `p3`: the point lies in the plane of
the three points, at the distance of `p1` from the centre, and within the
parameter range, which is the part of the circle on the side of the chord from
`p1` to `p3` on which `p2` lies, the two ends included.  For the segment: the
point lies on the line of `p1` and `p2`, between the two. -/
def Contains : CurveGeom → gp_Pnt → Prop
  | segment p1 p2, q =>
      (gp_Vec.ofPoints p1 q).Crossed (gp_Vec.ofPoints p1 p2) = ⟨0, 0, 0⟩ ∧
      0 ≤ (gp_Vec.ofPoints p1 q).Dot (gp_Vec.ofPoints p1 p2) ∧
      (gp_Vec.ofPoints p1 q).Dot (gp_Vec.ofPoints p1 p2) ≤ p1.SquareDistance p2
  | arcOfCircle p1 p2 p3, q =>
      (gp_Vec.ofPoints p1 q).Dot (planeNormal p1 p2 p3) = 0 ∧
      (circleCentre p1 p2 p3).SquareDistance q = (circleCentre p1 p2 p3).SquareDistance p1 ∧
      0 ≤ chordSide p1 p2 p3 q

/-- Modelled from the spec: the curve passes through the point strictly between
its two ends.  For the arc: as `Contains`, with the point strictly on the side
of the chord on which `p2` lies. -/
def Interior : CurveGeom → gp_Pnt → Prop
  | segment p1 p2, q =>
      (gp_Vec.ofPoints p1 q).Crossed (gp_Vec.ofPoints p1 p2) = ⟨0, 0, 0⟩ ∧
      0 < (gp_Vec.ofPoints p1 q).Dot (gp_Vec.ofPoints p1 p2) ∧
      (gp_Vec.ofPoints p1 q).Dot (gp_Vec.ofPoints p1 p2) < p1.SquareDistance p2
  | arcOfCircle p1 p2 p3, q =>
      (gp_Vec.ofPoints p1 q).Dot (planeNormal p1 p2 p3) = 0 ∧
      (circleCentre p1 p2 p3).SquareDistance q = (circleCentre p1 p2 p3).SquareDistance p1 ∧
      0 < chordSide p1 p2 p3 q

instance (g : CurveGeom) (q : gp_Pnt) : Decidable (g.Contains q) :=
  match g with
  | segment _ _ => inferInstanceAs (Decidable (_ ∧ _ ∧ _))
  | arcOfCircle _ _ _ => inferInstanceAs (Decidable (_ ∧ _ ∧ _))

instance (g : CurveGeom) (q : gp_Pnt) : Decidable (g.Interior q) :=
  match g with
  | segment _ _ => inferInstanceAs (Decidable (_ ∧ _ ∧ _))
  | arcOfCircle _ _ _ => inferInstanceAs (Decidable (_ ∧ _ ∧ _))

end CurveGeom

/-! ## Heap lemmas -/

namespace Heap

theorem read_append_left (h t : Heap) (a : Addr) (ha : a < h.length) :
    read (h ++ t) a = read h a := by
  simp [read, List.getElem?_append_left ha]

theorem read_length_append (h : Heap) (o : Option Obj) (t : Heap) :
    read (h ++ o :: t) h.length = o := by
  simp [read, List.getElem?_append_right (le_refl h.length)]

theorem read_succ_length_append (h : Heap) (o o1 : Option Obj) (t : Heap) :
    read (h ++ o :: o1 :: t) (h.length + 1) = o1 := by
  simp [read, List.getElem?_append_right (Nat.le_succ h.length)]

theorem write_length_append (h : Heap) (o o1 : Option Obj) (t : Heap) :
    write (h ++ o :: t) h.length o1 = h ++ o1 :: t := by
  simp [write, List.set_append_right]

theorem write_succ_length_append (h : Heap) (o o1 o2 : Option Obj) (t : Heap) :
    write (h ++ o :: o1 :: t) (h.length + 1) o2 = h ++ o :: o2 :: t := by
  simp [write, List.set_append_right]

theorem lt_length_of_read (h : Heap) (a : Addr) (o : Obj) (hr : read h a = some o) :
    a < h.length := by
  by_contra hlt
  have hnone : h[a]? = none := List.getElem?_eq_none (Nat.le_of_not_lt hlt)
  simp [read, hnone] at hr

theorem read_write_self (h : Heap) (a : Addr) (o : Option Obj) (ha : a < h.length) :
    read (write h a o) a = o := by
  simp [read, write, List.getElem?_set_self ha]

theorem write_write (h : Heap) (a : Addr) (o o1 : Option Obj) :
    write (write h a o) a o1 = write h a o1 := by
  simp [write, List.set_set]

theorem length_write (h : Heap) (a : Addr) (o : Option Obj) :
    (write h a o).length = h.length := by
  simp [write]

theorem write_append_left (h t : Heap) (a : Addr) (o : Option Obj) (ha : a < h.length) :
    write (h ++ t) a o = write h a o ++ t := by
  simp [write, List.set_append_left a o ha]

theorem read_of_curve (h : Heap) (a : Addr) (g : CurveGeom) (n : Nat)
    (hc : curve? h a = some (g, n)) : read h a = some (Obj.TrimmedCurve g n) := by
  unfold curve? at hc
  split at hc
  · next g1 n1 hr =>
      simp only [Option.some.injEq, Prod.mk.injEq] at hc
      rw [hr, hc.1, hc.2]
  · exact absurd hc (by simp)

theorem curve_of_read (h : Heap) (a : Addr) (g : CurveGeom) (n : Nat)
    (hr : read h a = some (Obj.TrimmedCurve g n)) : curve? h a = some (g, n) := by
  simp [curve?, hr]

end Heap

theorem new_segment_of_ne (h : Heap) (p1 p2 : gp_Pnt) (hne : p1 ≠ p2) :
    new_segment h p1 p2 =
      (h ++ [some (Obj.MakeSegment true (some (h.length + 1))),
             some (Obj.TrimmedCurve (CurveGeom.segment p1 p2) 1)],
       some (h.length + 1)) := by
  simp [new_segment, new_GC_MakeSegment, Heap.alloc, hne, Handle.acquire, Handle.release,
    Handle.get, Value, Heap.incRef, Heap.decRef, Heap.read_succ_length_append,
    Heap.write_succ_length_append, Heap.read_length_append, Heap.write_length_append]


theorem new_segment_of_eq (h : Heap) (p : gp_Pnt) :
    new_segment h p p = (h ++ [some (Obj.MakeSegment false none)], none) := by
  simp [new_segment, new_GC_MakeSegment, Heap.alloc, Handle.acquire, Handle.release,
    Handle.get, Value, Heap.read_length_append]

theorem new_arc_of_circle_of_not_collinear (h : Heap) (p1 p2 p3 : gp_Pnt)
    (hnc : ¬ collinear p1 p2 p3) :
    new_arc_of_circle h p1 p2 p3 =
      (h ++ [some (Obj.MakeArcOfCircle true (some (h.length + 1))),
             some (Obj.TrimmedCurve (CurveGeom.arcOfCircle p1 p2 p3) 1)],
       some (h.length + 1)) := by
  simp [new_arc_of_circle, new_GC_MakeArcOfCircle, Heap.alloc, hnc, Handle.acquire,
    Handle.release, Handle.get, Value, Heap.incRef, Heap.decRef, Heap.read_succ_length_append,
    Heap.write_succ_length_append, Heap.read_length_append, Heap.write_length_append]

theorem new_arc_of_circle_of_collinear (h : Heap) (p1 p2 p3 : gp_Pnt)
    (hc : collinear p1 p2 p3) :
    new_arc_of_circle h p1 p2 p3 = (h ++ [some (Obj.MakeArcOfCircle false none)], none) := by
  simp [new_arc_of_circle, new_GC_MakeArcOfCircle, Heap.alloc, hc, Handle.acquire,
    Handle.release, Handle.get, Value, Heap.read_length_append]

theorem make_edge_run_of_curve (keepsShare : Bool) (h : Heap) (c : Addr) (g : CurveGeom)
    (n : Nat) (hc : h.curve? c = some (g, n)) :
    make_edge_run keepsShare h c = some
      { curve_handle := some c
        afterHandle := withCount h c g (n + 1)
        afterBuilder := withCount h c g (n + 1 + keepsShare.toNat)
        afterNew := withCount h c g (n + 1 + keepsShare.toNat) ++
          [some (Obj.Edge g (if keepsShare then some c else none))]
        afterScope := (if n + keepsShare.toNat = 0 then h.write c none
            else withCount h c g (n + keepsShare.toNat)) ++
          [some (Obj.Edge g (if keepsShare then some c else none))]
        edge := h.length } := by
  have hr := Heap.read_of_curve h c g n hc
  have hlt := Heap.lt_length_of_read h c _ hr
  have hlt1 : c < (Heap.write h c (some (Obj.TrimmedCurve g (n + 1)))).length := by
    rw [Heap.length_write]; exact hlt
  have hlt2 : c < (Heap.write h c (some (Obj.TrimmedCurve g (n + 1 + 1)))).length := by
    rw [Heap.length_write]; exact hlt
  cases keepsShare
  · by_cases hn : n = 0 <;>
    simp [make_edge_run, BRepBuilderAPI_MakeEdge, Handle.acquire, Handle.release, Heap.incRef,
      Heap.decRef, Heap.curve?, hr, Heap.read_write_self, hlt, hlt1, Heap.alloc,
      Heap.read_append_left, Heap.write_append_left, Heap.write_write, Heap.length_write,
      withCount, hn]
  · simp [make_edge_run, BRepBuilderAPI_MakeEdge, Handle.acquire, Handle.release, Heap.incRef,
      Heap.decRef, Heap.curve?, hr, Heap.read_write_self, hlt, hlt1, hlt2, Heap.alloc,
      Heap.read_append_left, Heap.write_append_left, Heap.write_write, Heap.length_write,
      withCount]

theorem origin_ne_unitX : origin ≠ unitX := by decide

theorem collinear_origin_unitX_twoX : collinear origin unitX twoX := by
  simp [collinear, origin, unitX, twoX]

theorem not_collinear_origin_unitX_unitY : ¬ collinear origin unitX unitY := by
  simp [collinear, origin, unitX, unitY]

theorem computationCount_new_segment (h : Heap) (p1 p2 : gp_Pnt) :
    (new_segment h p1 p2).1.computationCount = h.computationCount + 1 := by
  by_cases hp : p1 = p2
  · subst hp
    simp [new_segment_of_eq, Heap.computationCount, List.countP_append, Heap.isComputation]
  · simp [new_segment_of_ne h p1 p2 hp, Heap.computationCount, List.countP_append,
      Heap.isComputation]

theorem computationCount_new_arc_of_circle (h : Heap) (p1 p2 p3 : gp_Pnt) :
    (new_arc_of_circle h p1 p2 p3).1.computationCount = h.computationCount + 1 := by
  by_cases hc : collinear p1 p2 p3
  · simp [new_arc_of_circle_of_collinear h p1 p2 p3 hc, Heap.computationCount,
      List.countP_append, Heap.isComputation]
  · simp [new_arc_of_circle_of_not_collinear h p1 p2 p3 hc, Heap.computationCount,
      List.countP_append, Heap.isComputation]

theorem computationCount_repeat_new_segment (n : Nat) (h : Heap) (p1 p2 : gp_Pnt) :
    (repeat_new_segment n h p1 p2).computationCount = h.computationCount + n := by
  induction n generalizing h with
  | zero => rfl
  | succ k ih =>
      rw [repeat_new_segment, ih, computationCount_new_segment]
      omega

theorem computationCount_repeat_new_arc_of_circle (n : Nat) (h : Heap) (p1 p2 p3 : gp_Pnt) :
    (repeat_new_arc_of_circle n h p1 p2 p3).computationCount = h.computationCount + n := by
  induction n generalizing h with
  | zero => rfl
  | succ k ih =>
      rw [repeat_new_arc_of_circle, ih, computationCount_new_arc_of_circle]
      omega

theorem liveCount_new_segment (h : Heap) (p1 p2 : gp_Pnt) :
    (new_segment h p1 p2).1.liveCount = h.liveCount + (if p1 = p2 then 1 else 2) := by
  by_cases hp : p1 = p2
  · subst hp
    simp [new_segment_of_eq, Heap.liveCount, List.countP_append]
  · simp [new_segment_of_ne h p1 p2 hp, Heap.liveCount, List.countP_append, hp]

theorem liveCount_new_arc_of_circle (h : Heap) (p1 p2 p3 : gp_Pnt) :
    (new_arc_of_circle h p1 p2 p3).1.liveCount =
      h.liveCount + (if collinear p1 p2 p3 then 1 else 2) := by
  by_cases hc : collinear p1 p2 p3
  · simp [new_arc_of_circle_of_collinear h p1 p2 p3 hc, Heap.liveCount, List.countP_append, hc]
  · simp [new_arc_of_circle_of_not_collinear h p1 p2 p3 hc, Heap.liveCount,
      List.countP_append, hc]

theorem liveCount_repeat_new_segment (n : Nat) (h : Heap) (p1 p2 : gp_Pnt) :
    (repeat_new_segment n h p1 p2).liveCount =
      h.liveCount + n * (if p1 = p2 then 1 else 2) := by
  induction n generalizing h with
  | zero => simp [repeat_new_segment]
  | succ k ih =>
      rw [repeat_new_segment, ih, liveCount_new_segment, Nat.succ_mul]
      omega

theorem liveCount_repeat_new_arc_of_circle (n : Nat) (h : Heap) (p1 p2 p3 : gp_Pnt) :
    (repeat_new_arc_of_circle n h p1 p2 p3).liveCount =
      h.liveCount + n * (if collinear p1 p2 p3 then 1 else 2) := by
  induction n generalizing h with
  | zero => simp [repeat_new_arc_of_circle]
  | succ k ih =>
      rw [repeat_new_arc_of_circle, ih, liveCount_new_arc_of_circle, Nat.succ_mul]
      omega

theorem curve_withCount (h : Heap) (c : Addr) (g : CurveGeom) (m : Nat) (hlt : c < h.length) :
    (withCount h c g m).curve? c = some (g, m) :=
  Heap.curve_of_read _ _ _ _ (Heap.read_write_self h c _ hlt)

theorem curve_withCount_append (h t : Heap) (c : Addr) (g : CurveGeom) (m : Nat)
    (hlt : c < h.length) : (withCount h c g m ++ t).curve? c = some (g, m) := by
  apply Heap.curve_of_read
  rw [Heap.read_append_left _ _ _ (by rw [withCount, Heap.length_write]; exact hlt)]
  exact Heap.read_write_self h c _ hlt

theorem length_withCount (h : Heap) (c : Addr) (g : CurveGeom) (m : Nat) :
    (withCount h c g m).length = h.length := by
  rw [withCount, Heap.length_write]

theorem length_after_release (h : Heap) (c : Addr) (g : CurveGeom) (k : Nat) :
    (if k = 0 then h.write c none else withCount h c g k).length = h.length := by
  split
  · exact Heap.length_write h c none
  · exact length_withCount h c g k

theorem read_appended (t h : Heap) (o : Option Obj) (ht : t.length = h.length) :
    Heap.read (t ++ [o]) h.length = o := by
  rw [← ht]
  exact Heap.read_length_append t o []

theorem make_edge_of_shared_curve (keepsShare : Bool) (h : Heap) (c : Addr) (g : CurveGeom)
    (n : Nat) (hc : h.curve? c = some (g, n)) (hn : 1 ≤ n) :
    make_edge keepsShare h c = some
      (withCount h c g (n + keepsShare.toNat) ++
        [some (Obj.Edge g (if keepsShare then some c else none))], some h.length) := by
  rw [make_edge, make_edge_run_of_curve keepsShare h c g n hc, Option.map_some',
    if_neg (show ¬ (n + keepsShare.toNat = 0) by omega)]

/-! ## The claims -/

/-- C1: for all coordinates `x`, `y`, `z`, `new_point` returns a non-null pointer
to a live point whose `X()`, `Y()` and `Z()` are exactly `x`, `y` and `z`, in that
order; the function is total, so the call never fails. -/
theorem new_point_coordinates (h : Heap) (x y z : ℚ) :
    ∃ a p, (new_point h x y z).2 = some a ∧
      (new_point h x y z).1.read a = some (Obj.Pnt p) ∧
      p.X = x ∧ p.Y = y ∧ p.Z = z :=
  ⟨h.length, ⟨x, y, z⟩, rfl, by
    simp [new_point, Heap.alloc, Heap.read_length_append], rfl, rfl, rfl⟩

/-- C2 as stated fails: on the coincident points (0,0,0), (0,0,0) the caller of
`new_segment` does not obtain the failure `DegenerateInputError`; the call
returns. -/
theorem new_segment_coincident_not_rejected :
    new_segment [] origin origin = ([some (Obj.MakeSegment false none)], none) ∧
    ¬ (obtained (new_segment [] origin origin) =
        Except.error WrapperError.DegenerateInputError) := by
  refine ⟨new_segment_of_eq [] origin, ?_⟩
  rw [new_segment_of_eq]
  simp [obtained]

/-- C2, amended: on coincident points `new_segment` reports no failure.  It takes
`Value()` of a computation that reports non-success and returns the raw pointer
of the handle so obtained, which is null: the caller obtains no trimmed-curve
value and no error. -/
theorem new_segment_coincident_returns_null (h : Heap) (p : gp_Pnt) :
    obtained (new_segment h p p) = Except.ok none ∧
    IsDone (new_GC_MakeSegment h p p).1 (new_GC_MakeSegment h p p).2 = false ∧
    (new_segment h p p).2 =
      Handle.get (Value (new_GC_MakeSegment h p p).1 (new_GC_MakeSegment h p p).2) ∧
    (new_segment h p p).2 = none := by
  refine ⟨?_, ?_, ?_, ?_⟩
  · rw [new_segment_of_eq]; simp [obtained]
  · simp [IsDone, new_GC_MakeSegment, Heap.alloc, Heap.read_length_append]
  · rfl
  · rw [new_segment_of_eq]

/-- C3 as stated fails: on the collinear points (0,0,0), (1,0,0), (2,0,0) the
caller of `new_arc_of_circle` does not obtain the failure
`DegenerateInputError`; the call returns. -/
theorem new_arc_of_circle_collinear_not_rejected :
    collinear origin unitX twoX ∧
    new_arc_of_circle [] origin unitX twoX =
      ([some (Obj.MakeArcOfCircle false none)], none) ∧
    ¬ (obtained (new_arc_of_circle [] origin unitX twoX) =
        Except.error WrapperError.DegenerateInputError) := by
  refine ⟨collinear_origin_unitX_twoX,
    new_arc_of_circle_of_collinear [] _ _ _ collinear_origin_unitX_twoX, ?_⟩
  rw [new_arc_of_circle_of_collinear _ _ _ _ collinear_origin_unitX_twoX]
  simp [obtained]

/-- C3, amended: on collinear points `new_arc_of_circle` reports no failure.  It
takes `Value()` of a computation that reports non-success and returns the raw
pointer of the handle so obtained, which is null: the caller obtains no
trimmed-curve value and no error. -/
theorem new_arc_of_circle_collinear_returns_null (h : Heap) (p1 p2 p3 : gp_Pnt)
    (hc : collinear p1 p2 p3) :
    obtained (new_arc_of_circle h p1 p2 p3) = Except.ok none ∧
    IsDone (new_GC_MakeArcOfCircle h p1 p2 p3).1 (new_GC_MakeArcOfCircle h p1 p2 p3).2 = false ∧
    (new_arc_of_circle h p1 p2 p3).2 =
      Handle.get (Value (new_GC_MakeArcOfCircle h p1 p2 p3).1
        (new_GC_MakeArcOfCircle h p1 p2 p3).2) ∧
    (new_arc_of_circle h p1 p2 p3).2 = none := by
  refine ⟨?_, ?_, ?_, ?_⟩
  · rw [new_arc_of_circle_of_collinear h p1 p2 p3 hc]; simp [obtained]
  · simp [IsDone, new_GC_MakeArcOfCircle, Heap.alloc, hc, Heap.read_length_append]
  · rfl
  · rw [new_arc_of_circle_of_collinear h p1 p2 p3 hc]

/-- Witness of C3, amended, at the collinear points (0,0,0), (1,0,0), (2,0,0). -/
theorem new_arc_of_circle_collinear_returns_null_witness :
    collinear origin unitX twoX ∧
    obtained (new_arc_of_circle [] origin unitX twoX) = Except.ok none ∧
    (new_arc_of_circle [] origin unitX twoX).2 = none :=
  ⟨collinear_origin_unitX_twoX,
   (new_arc_of_circle_collinear_returns_null [] origin unitX twoX
      collinear_origin_unitX_twoX).1,
   (new_arc_of_circle_collinear_returns_null [] origin unitX twoX
      collinear_origin_unitX_twoX).2.2.2⟩

/-- C4: for distinct points `p1 ≠ p2`, `new_segment` returns a non-null pointer
to a live trimmed curve that starts at `p1` and ends at `p2` (it is the kernel's
segment of `p1`, `p2` in that order), and every object alive before the call,
the two input points among them, is unchanged. -/
theorem new_segment_distinct (h : Heap) (p1 p2 : gp_Pnt) (hne : p1 ≠ p2) :
    ∃ a g n, (new_segment h p1 p2).2 = some a ∧
      (new_segment h p1 p2).1.curve? a = some (g, n) ∧
      g = CurveGeom.segment p1 p2 ∧ g.StartPoint = p1 ∧ g.EndPoint = p2 ∧
      ∀ b o, h.read b = some o → (new_segment h p1 p2).1.read b = some o := by
  rw [new_segment_of_ne h p1 p2 hne]
  refine ⟨h.length + 1, CurveGeom.segment p1 p2, 1, rfl, ?_, rfl, rfl, rfl, ?_⟩
  · exact Heap.curve_of_read _ _ _ _ (Heap.read_succ_length_append h _ _ [])
  · intro b o hb
    rw [Heap.read_append_left _ _ _ (Heap.lt_length_of_read h b o hb)]
    exact hb

/-- Witness of C4 at (0,0,0) and (1,0,0) on the empty heap. -/
theorem new_segment_distinct_witness :
    origin ≠ unitX ∧
    ∃ a g n, (new_segment [] origin unitX).2 = some a ∧
      (new_segment [] origin unitX).1.curve? a = some (g, n) ∧
      g = CurveGeom.segment origin unitX ∧ g.StartPoint = origin ∧ g.EndPoint = unitX ∧
      ∀ b o, Heap.read [] b = some o → (new_segment [] origin unitX).1.read b = some o :=
  ⟨origin_ne_unitX, new_segment_distinct [] origin unitX origin_ne_unitX⟩

/-- C6: for distinct points `p1 ≠ p2`, `make_edge` applied to the curve returned
by `new_segment` succeeds and returns a non-null pointer to a live edge built on
that same segment, whose curve starts at `p1` and ends at `p2`; the curve itself
is still alive with the same value after the call. -/
theorem make_edge_of_new_segment (keepsShare : Bool) (h : Heap) (p1 p2 : gp_Pnt)
    (hne : p1 ≠ p2) :
    ∃ c g n, (new_segment h p1 p2).2 = some c ∧
      (new_segment h p1 p2).1.curve? c = some (g, n) ∧
      ∃ h2 e s m, make_edge keepsShare (new_segment h p1 p2).1 c = some (h2, some e) ∧
        h2.read e = some (Obj.Edge g s) ∧ h2.curve? c = some (g, m) ∧
        g = CurveGeom.segment p1 p2 ∧ g.StartPoint = p1 ∧ g.EndPoint = p2 := by
  have hlt : h.length + 1 <
      (h ++ [some (Obj.MakeSegment true (some (h.length + 1))),
             some (Obj.TrimmedCurve (CurveGeom.segment p1 p2) 1)]).length := by simp
  have hc : Heap.curve? (h ++ [some (Obj.MakeSegment true (some (h.length + 1))),
      some (Obj.TrimmedCurve (CurveGeom.segment p1 p2) 1)]) (h.length + 1) =
      some (CurveGeom.segment p1 p2, 1) :=
    Heap.curve_of_read _ _ _ _ (Heap.read_succ_length_append h _ _ [])
  rw [new_segment_of_ne h p1 p2 hne]
  refine ⟨h.length + 1, CurveGeom.segment p1 p2, 1, rfl, hc, ?_⟩
  rw [make_edge_of_shared_curve keepsShare _ _ _ 1 hc (le_refl 1)]
  exact ⟨_, _, _, 1 + keepsShare.toNat, rfl,
    read_appended _ _ _ (length_withCount _ _ _ _),
    curve_withCount_append _ _ _ _ _ hlt, rfl, rfl, rfl⟩

/-- Witness of C6, the end-to-end chain of the specification: the points made by
`new_point(0,0,0)` and `new_point(1,0,0)` are read back from the heap, and the
edge is made on the segment between them. -/
theorem make_edge_of_new_segment_witness :
    (new_point (new_point [] 0 0 0).1 1 0 0).1 = [some (Obj.Pnt origin), some (Obj.Pnt unitX)] ∧
    origin ≠ unitX ∧
    ∃ c g n, (new_segment [some (Obj.Pnt origin), some (Obj.Pnt unitX)] origin unitX).2 = some c ∧
      (new_segment [some (Obj.Pnt origin), some (Obj.Pnt unitX)] origin unitX).1.curve? c =
        some (g, n) ∧
      ∃ h2 e s m,
        make_edge false (new_segment [some (Obj.Pnt origin), some (Obj.Pnt unitX)]
          origin unitX).1 c = some (h2, some e) ∧
        h2.read e = some (Obj.Edge g s) ∧ h2.curve? c = some (g, m) ∧
        g = CurveGeom.segment origin unitX ∧ g.StartPoint = origin ∧ g.EndPoint = unitX :=
  ⟨rfl, origin_ne_unitX,
   make_edge_of_new_segment false [some (Obj.Pnt origin), some (Obj.Pnt unitX)] origin unitX
     origin_ne_unitX⟩

/-- C7, what the source does: every call of `new_segment` and of
`new_arc_of_circle` leaves its computation object on the heap.  After `n` calls
there are `n` more live computation objects than before, whatever the points,
and the number of live objects has grown by `2 * n` when each call returns a
curve (by `n`, the computation objects alone, when none does). -/
theorem constructors_leak_computation_object (n : Nat) (h : Heap) (p1 p2 p3 : gp_Pnt) :
    (repeat_new_segment n h p1 p2).computationCount = h.computationCount + n ∧
    (repeat_new_arc_of_circle n h p1 p2 p3).computationCount = h.computationCount + n ∧
    (repeat_new_segment n h p1 p2).liveCount =
      h.liveCount + n * (if p1 = p2 then 1 else 2) ∧
    (repeat_new_arc_of_circle n h p1 p2 p3).liveCount =
      h.liveCount + n * (if collinear p1 p2 p3 then 1 else 2) :=
  ⟨computationCount_repeat_new_segment n h p1 p2,
   computationCount_repeat_new_arc_of_circle n h p1 p2 p3,
   liveCount_repeat_new_segment n h p1 p2,
   liveCount_repeat_new_arc_of_circle n h p1 p2 p3⟩

/-- C8, what the source does: the handle `make_edge` gives to the edge builder
designates the caller's curve object itself, whatever its counter was; the call
allocates one object only, the edge, so no copy of the curve is made; and a
curve that no handle owned on entry (counter 0) is destroyed at the end of the
call when the edge keeps no handle on it. -/
theorem make_edge_aliases_caller_curve (keepsShare : Bool) (h : Heap) (c : Addr)
    (g : CurveGeom) (n : Nat) (hc : h.curve? c = some (g, n)) :
    ∃ r, make_edge_run keepsShare h c = some r ∧
      r.curve_handle = some c ∧
      r.afterScope.length = h.length + 1 ∧
      (∃ s, r.afterScope.read h.length = some (Obj.Edge g s)) ∧
      (n = 0 → keepsShare = false → r.afterScope.read c = none) := by
  have hlt := Heap.lt_length_of_read h c _ (Heap.read_of_curve h c g n hc)
  refine ⟨_, make_edge_run_of_curve keepsShare h c g n hc, rfl, ?_, ?_, ?_⟩
  · rw [List.length_append, length_after_release]
    rfl
  · exact ⟨_, read_appended _ _ _ (length_after_release h c g _)⟩
  · intro hn hk
    subst hn hk
    simp only [Bool.toNat_false, Nat.add_zero, if_true]
    rw [Heap.read_append_left _ _ _ (by rw [Heap.length_write]; exact hlt)]
    exact Heap.read_write_self h c none hlt

/-- Witness of C8 at the failing input: a segment curve with counter 0 at address
0, given to `make_edge`. -/
theorem make_edge_aliases_caller_curve_witness :
    unsharedCurveHeap.curve? 0 = some (CurveGeom.segment origin unitX, 0) ∧
    ∃ r, make_edge_run false unsharedCurveHeap 0 = some r ∧
      r.curve_handle = some 0 ∧
      r.afterScope.length = unsharedCurveHeap.length + 1 ∧
      (∃ s, r.afterScope.read unsharedCurveHeap.length =
        some (Obj.Edge (CurveGeom.segment origin unitX) s)) ∧
      ((0 : Nat) = 0 → false = false → r.afterScope.read 0 = none) :=
  ⟨rfl, make_edge_aliases_caller_curve false unsharedCurveHeap 0
    (CurveGeom.segment origin unitX) 0 rfl⟩

/-- C9, what the source does: at the return of `new_segment` on distinct points
and of `new_arc_of_circle` on non-collinear points, the computation object is
alive and its member handle designates the returned curve, whose counter is 1:
the one counted owner of the returned curve is that intermediate object. -/
theorem returned_curve_owned_by_computation_object (h : Heap) (p1 p2 p3 : gp_Pnt)
    (hne : p1 ≠ p2) (hnc : ¬ collinear p1 p2 p3) :
    (∃ a, (new_segment h p1 p2).2 = some a ∧
      (new_segment h p1 p2).1.read h.length = some (Obj.MakeSegment true (some a)) ∧
      (new_segment h p1 p2).1.curve? a = some (CurveGeom.segment p1 p2, 1)) ∧
    (∃ a, (new_arc_of_circle h p1 p2 p3).2 = some a ∧
      (new_arc_of_circle h p1 p2 p3).1.read h.length =
        some (Obj.MakeArcOfCircle true (some a)) ∧
      (new_arc_of_circle h p1 p2 p3).1.curve? a =
        some (CurveGeom.arcOfCircle p1 p2 p3, 1)) := by
  rw [new_segment_of_ne h p1 p2 hne, new_arc_of_circle_of_not_collinear h p1 p2 p3 hnc]
  exact ⟨⟨h.length + 1, rfl, Heap.read_length_append h _ _,
      Heap.curve_of_read _ _ _ _ (Heap.read_succ_length_append h _ _ [])⟩,
    ⟨h.length + 1, rfl, Heap.read_length_append h _ _,
      Heap.curve_of_read _ _ _ _ (Heap.read_succ_length_append h _ _ [])⟩⟩

/-- Witness of C9 at the failing inputs (0,0,0), (1,0,0) and (0,0,0), (1,0,0),
(0,1,0) on the empty heap. -/
theorem returned_curve_owned_by_computation_object_witness :
    origin ≠ unitX ∧ ¬ collinear origin unitX unitY ∧
    (∃ a, (new_segment [] origin unitX).2 = some a ∧
      (new_segment [] origin unitX).1.read 0 = some (Obj.MakeSegment true (some a)) ∧
      (new_segment [] origin unitX).1.curve? a = some (CurveGeom.segment origin unitX, 1)) ∧
    (∃ a, (new_arc_of_circle [] origin unitX unitY).2 = some a ∧
      (new_arc_of_circle [] origin unitX unitY).1.read 0 =
        some (Obj.MakeArcOfCircle true (some a)) ∧
      (new_arc_of_circle [] origin unitX unitY).1.curve? a =
        some (CurveGeom.arcOfCircle origin unitX unitY, 1)) :=
  ⟨origin_ne_unitX, not_collinear_origin_unitX_unitY,
   returned_curve_owned_by_computation_object [] origin unitX unitY origin_ne_unitX
     not_collinear_origin_unitX_unitY⟩

/-- C10: for a curve `c` whose reference counter is at least 1 on entry,
`make_edge` succeeds and does not destroy `c`: in every state of the call, the
state at return included, `c` is alive with its value unchanged and a counter
not lower than on entry, hence never zero. -/
theorem make_edge_keeps_curve (keepsShare : Bool) (h : Heap) (c : Addr) (g : CurveGeom)
    (n : Nat) (hc : h.curve? c = some (g, n)) (hn : 1 ≤ n) :
    ∃ r, make_edge_run keepsShare h c = some r ∧
      make_edge keepsShare h c = some (r.afterScope, some r.edge) ∧
      ∀ s ∈ r.states, ∃ m, s.curve? c = some (g, m) ∧ n ≤ m ∧ 1 ≤ m := by
  have hlt := Heap.lt_length_of_read h c _ (Heap.read_of_curve h c g n hc)
  refine ⟨_, make_edge_run_of_curve keepsShare h c g n hc, ?_, ?_⟩
  · simp [make_edge, make_edge_run_of_curve keepsShare h c g n hc]
  · intro s hs
    simp only [MakeEdgeRun.states, List.mem_cons, List.mem_singleton, List.mem_nil_iff,
      or_false] at hs
    rcases hs with rfl | rfl | rfl | rfl
    · exact ⟨n + 1, curve_withCount h c g _ hlt, by omega, by omega⟩
    · exact ⟨n + 1 + keepsShare.toNat, curve_withCount h c g _ hlt, by omega, by omega⟩
    · exact ⟨n + 1 + keepsShare.toNat, curve_withCount_append h _ c g _ hlt, by omega,
        by omega⟩
    · rw [if_neg (show ¬ (n + keepsShare.toNat = 0) by omega)]
      exact ⟨n + keepsShare.toNat, curve_withCount_append h _ c g _ hlt, by omega, by omega⟩

/-- Witness of C10 on the curve returned by `new_segment` for (0,0,0), (1,0,0):
it sits at address 1 with counter 1. -/
theorem make_edge_keeps_curve_witness :
    (new_segment [] origin unitX).2 = some 1 ∧
    (new_segment [] origin unitX).1.curve? 1 = some (CurveGeom.segment origin unitX, 1) ∧
    ∃ r, make_edge_run false (new_segment [] origin unitX).1 1 = some r ∧
      make_edge false (new_segment [] origin unitX).1 1 = some (r.afterScope, some r.edge) ∧
      ∀ s ∈ r.states, ∃ m, s.curve? 1 = some (CurveGeom.segment origin unitX, m) ∧
        1 ≤ m ∧ 1 ≤ m :=
  ⟨by decide, by decide,
   make_edge_keeps_curve false (new_segment [] origin unitX).1 1
     (CurveGeom.segment origin unitX) 1 (by decide) (le_refl 1)⟩

/-! ## The arc through three non-collinear points -/

theorem sum_mul_self_eq_zero (a b c : ℚ) (hs : a * a + b * b + c * c = 0) :
    a = 0 ∧ b = 0 ∧ c = 0 := by
  have ha := mul_self_nonneg a
  have hb := mul_self_nonneg b
  have hc := mul_self_nonneg c
  exact ⟨mul_self_eq_zero.mp (by linarith), mul_self_eq_zero.mp (by linarith),
    mul_self_eq_zero.mp (by linarith)⟩

theorem planeNormal_sq_pos (p1 p2 p3 : gp_Pnt) (hnc : ¬ collinear p1 p2 p3) :
    0 < (planeNormal p1 p2 p3).SquareMagnitude := by
  have hnn : 0 ≤ (planeNormal p1 p2 p3).SquareMagnitude := by
    simp only [gp_Vec.SquareMagnitude, gp_Vec.Dot]
    exact add_nonneg (add_nonneg (mul_self_nonneg _) (mul_self_nonneg _)) (mul_self_nonneg _)
  rcases lt_or_eq_of_le hnn with hpos | hzero
  · exact hpos
  · exact absurd (sum_mul_self_eq_zero _ _ _ hzero.symm) hnc

theorem centreOffset_dot_first (u v : gp_Vec) (hd : (u.Crossed v).SquareMagnitude ≠ 0) :
    2 * (centreOffset u v).Dot u = u.SquareMagnitude := by
  obtain ⟨ux, uy, uz⟩ := u
  obtain ⟨vx, vy, vz⟩ := v
  simp only [gp_Vec.SquareMagnitude, gp_Vec.Dot, gp_Vec.Crossed] at hd
  simp only [centreOffset, gp_Vec.SquareMagnitude, gp_Vec.Dot, gp_Vec.Crossed]
  field_simp
  ring

theorem centreOffset_dot_second (u v : gp_Vec) (hd : (u.Crossed v).SquareMagnitude ≠ 0) :
    2 * (centreOffset u v).Dot v = v.SquareMagnitude := by
  obtain ⟨ux, uy, uz⟩ := u
  obtain ⟨vx, vy, vz⟩ := v
  simp only [gp_Vec.SquareMagnitude, gp_Vec.Dot, gp_Vec.Crossed] at hd
  simp only [centreOffset, gp_Vec.SquareMagnitude, gp_Vec.Dot, gp_Vec.Crossed]
  field_simp
  ring

theorem centreOffset_dot_normal (u v : gp_Vec) (hd : (u.Crossed v).SquareMagnitude ≠ 0) :
    (centreOffset u v).Dot (u.Crossed v) = 0 := by
  obtain ⟨ux, uy, uz⟩ := u
  obtain ⟨vx, vy, vz⟩ := v
  simp only [gp_Vec.SquareMagnitude, gp_Vec.Dot, gp_Vec.Crossed] at hd
  simp only [centreOffset, gp_Vec.SquareMagnitude, gp_Vec.Dot, gp_Vec.Crossed]
  field_simp
  ring

theorem squareDistance_of_offset (p q : gp_Pnt) (w : gp_Vec)
    (hw : 2 * w.Dot (gp_Vec.ofPoints p q) = (gp_Vec.ofPoints p q).SquareMagnitude) :
    gp_Pnt.SquareDistance ⟨p.x + w.x, p.y + w.y, p.z + w.z⟩ q =
      gp_Pnt.SquareDistance ⟨p.x + w.x, p.y + w.y, p.z + w.z⟩ p := by
  simp only [gp_Vec.SquareMagnitude, gp_Vec.Dot, gp_Vec.ofPoints] at hw
  simp only [gp_Pnt.SquareDistance, gp_Vec.SquareMagnitude, gp_Vec.Dot, gp_Vec.ofPoints]
  linear_combination (-1 : ℚ) * hw

theorem circleCentre_equidistant (p1 p2 p3 : gp_Pnt) (hnc : ¬ collinear p1 p2 p3) :
    (circleCentre p1 p2 p3).SquareDistance p2 = (circleCentre p1 p2 p3).SquareDistance p1 ∧
    (circleCentre p1 p2 p3).SquareDistance p3 = (circleCentre p1 p2 p3).SquareDistance p1 := by
  have hd : ((gp_Vec.ofPoints p1 p2).Crossed (gp_Vec.ofPoints p1 p3)).SquareMagnitude ≠ 0 :=
    ne_of_gt (planeNormal_sq_pos p1 p2 p3 hnc)
  exact ⟨squareDistance_of_offset p1 p2 _ (centreOffset_dot_first _ _ hd),
    squareDistance_of_offset p1 p3 _ (centreOffset_dot_second _ _ hd)⟩

theorem circleCentre_in_plane (p1 p2 p3 : gp_Pnt) (hnc : ¬ collinear p1 p2 p3) :
    (gp_Vec.ofPoints p1 (circleCentre p1 p2 p3)).Dot (planeNormal p1 p2 p3) = 0 := by
  have hd : ((gp_Vec.ofPoints p1 p2).Crossed (gp_Vec.ofPoints p1 p3)).SquareMagnitude ≠ 0 :=
    ne_of_gt (planeNormal_sq_pos p1 p2 p3 hnc)
  have h := centreOffset_dot_normal _ _ hd
  simp only [gp_Vec.Dot] at h
  simp only [gp_Vec.Dot, gp_Vec.ofPoints, circleCentre, planeNormal, add_sub_cancel_left]
  exact h

theorem chordSide_first (p1 p2 p3 : gp_Pnt) : chordSide p1 p2 p3 p1 = 0 := by
  simp only [chordSide, gp_Vec.Dot, gp_Vec.Crossed, gp_Vec.ofPoints, planeNormal]
  ring

theorem chordSide_last (p1 p2 p3 : gp_Pnt) : chordSide p1 p2 p3 p3 = 0 := by
  simp only [chordSide, gp_Vec.Dot, gp_Vec.Crossed, gp_Vec.ofPoints, planeNormal]
  ring

theorem chordSide_middle (p1 p2 p3 : gp_Pnt) :
    chordSide p1 p2 p3 p2 = (planeNormal p1 p2 p3).SquareMagnitude := rfl

theorem dot_normal_first (p1 p2 p3 : gp_Pnt) :
    (gp_Vec.ofPoints p1 p1).Dot (planeNormal p1 p2 p3) = 0 := by
  simp only [gp_Vec.Dot, gp_Vec.ofPoints, sub_self, zero_mul, add_zero]

theorem dot_normal_middle (p1 p2 p3 : gp_Pnt) :
    (gp_Vec.ofPoints p1 p2).Dot (planeNormal p1 p2 p3) = 0 := by
  simp only [gp_Vec.Dot, gp_Vec.Crossed, gp_Vec.ofPoints, planeNormal]
  ring

theorem dot_normal_last (p1 p2 p3 : gp_Pnt) :
    (gp_Vec.ofPoints p1 p3).Dot (planeNormal p1 p2 p3) = 0 := by
  simp only [gp_Vec.Dot, gp_Vec.Crossed, gp_Vec.ofPoints, planeNormal]
  ring

theorem circleCentre_sample : circleCentre origin unitX unitY = ⟨1 / 2, 1 / 2, 0⟩ := by
  simp only [circleCentre, centreOffset, gp_Vec.SquareMagnitude, gp_Vec.Dot, gp_Vec.Crossed,
    gp_Vec.ofPoints, origin, unitX, unitY]
  norm_num

/-- C5: for non-collinear points `p1`, `p2`, `p3`, `new_arc_of_circle` succeeds:
it returns a non-null pointer to a live trimmed curve that starts at `p1` and
ends at `p3`.  In exact arithmetic the three points are equidistant from the
centre of that curve, the curve passes through all three of them, and `p2` is
strictly inside its parameter range, between the two ends. -/
theorem new_arc_of_circle_through_points (h : Heap) (p1 p2 p3 : gp_Pnt)
    (hnc : ¬ collinear p1 p2 p3) :
    ∃ a g n c, (new_arc_of_circle h p1 p2 p3).2 = some a ∧
      (new_arc_of_circle h p1 p2 p3).1.curve? a = some (g, n) ∧
      g.StartPoint = p1 ∧ g.EndPoint = p3 ∧
      g.Centre = some c ∧
      c.SquareDistance p1 = c.SquareDistance p2 ∧
      c.SquareDistance p2 = c.SquareDistance p3 ∧
      g.Contains p1 ∧ g.Contains p2 ∧ g.Contains p3 ∧ g.Interior p2 := by
  have heq := circleCentre_equidistant p1 p2 p3 hnc
  have hpos := planeNormal_sq_pos p1 p2 p3 hnc
  rw [new_arc_of_circle_of_not_collinear h p1 p2 p3 hnc]
  refine ⟨h.length + 1, CurveGeom.arcOfCircle p1 p2 p3, 1, circleCentre p1 p2 p3, rfl,
    Heap.curve_of_read _ _ _ _ (Heap.read_succ_length_append h _ _ []), rfl, rfl, rfl,
    heq.1.symm, heq.1.trans heq.2.symm, ?_, ?_, ?_, ?_⟩
  · exact ⟨dot_normal_first p1 p2 p3, rfl, le_of_eq (chordSide_first p1 p2 p3).symm⟩
  · exact ⟨dot_normal_middle p1 p2 p3, heq.1,
      le_of_lt (by rw [chordSide_middle]; exact hpos)⟩
  · exact ⟨dot_normal_last p1 p2 p3, heq.2, le_of_eq (chordSide_last p1 p2 p3).symm⟩
  · exact ⟨dot_normal_middle p1 p2 p3, heq.1, by rw [chordSide_middle]; exact hpos⟩

/-- Witness of C5 at (0,0,0), (1,0,0), (0,1,0) on the empty heap, where the centre
is (1/2, 1/2, 0). -/
theorem new_arc_of_circle_through_points_witness :
    ¬ collinear origin unitX unitY ∧
    circleCentre origin unitX unitY = ⟨1 / 2, 1 / 2, 0⟩ ∧
    ∃ a g n c, (new_arc_of_circle [] origin unitX unitY).2 = some a ∧
      (new_arc_of_circle [] origin unitX unitY).1.curve? a = some (g, n) ∧
      g.StartPoint = origin ∧ g.EndPoint = unitY ∧
      g.Centre = some c ∧
      c.SquareDistance origin = c.SquareDistance unitX ∧
      c.SquareDistance unitX = c.SquareDistance unitY ∧
      g.Contains origin ∧ g.Contains unitX ∧ g.Contains unitY ∧ g.Interior unitX :=
  ⟨not_collinear_origin_unitX_unitY, circleCentre_sample,
   new_arc_of_circle_through_points [] origin unitX unitY not_collinear_origin_unitX_unitY⟩

end OpenCascade
